import Mathlib

/-!
Verification development for the warp-nextdns-wireguard orchestration tool.

Each Python routine referenced by the specification is shallowly embedded as
an executable Lean definition over explicit inputs: subprocess, HTTP and
filesystem probe results become function arguments (an `Except`/`Option`
value models a call that may raise), and the embedded definition reproduces
the control flow of the source line by line.
-/

/- ## Python string primitives

`containsSub pat s` models the Python expression `pat in s` on strings,
and `replaceAll pat rep s` models `s.replace(pat, rep)` (leftmost,
non-overlapping, replacement text not rescanned).  Strings are represented
as lists of characters. -/

/-- Model of the Python substring test `pat in s`. -/
def containsSub (pat : List Char) : List Char → Bool
  | [] => pat.isEmpty
  | c :: rest => pat.isPrefixOf (c :: rest) || containsSub pat rest

/-- Fuel-indexed worker for `replaceAll`; the fuel starts at the length of
the subject string, which is enough for the whole scan (at least one
character is consumed per step). -/
def replFuel (pat rep : List Char) : Nat → List Char → List Char
  | _, [] => []
  | 0, l => l
  | fuel + 1, c :: rest =>
    if pat.isPrefixOf (c :: rest) ∧ 0 < pat.length then
      rep ++ replFuel pat rep fuel (List.drop (pat.length - 1) rest)
    else
      c :: replFuel pat rep fuel rest

/-- Model of Python `s.replace(pat, rep)` for a non-empty pattern. -/
def replaceAll (pat rep s : List Char) : List Char :=
  replFuel pat rep s.length s

/- ## WGCFManager.modify_profile_for_nextdns (src/utils/wgcf_manager.py:71-94)

The file content is read, the two Cloudflare DNS lines are commented out by
plain substring replacement, and a localhost DNS line is injected after the
first commented line when no `DNS = 127.0.0.1` line is present yet. -/

namespace WGCFManager

/-- The conditional insertion of the localhost DNS line (the final `if` of
the source routine, applied to the content after the two replacements). -/
def dnsInject (c2 : List Char) : List Char :=
  if containsSub "#DNS = ".toList c2 ∧ ¬ (containsSub "DNS = 127.0.0.1".toList c2 = true) then
    replaceAll "#DNS = 1.1.1.1".toList "#DNS = 1.1.1.1\nDNS = 127.0.0.1".toList c2
  else
    c2

/-- The pure text transformation performed by
`WGCFManager.modify_profile_for_nextdns` on the profile file content. -/
def modify_profile_for_nextdns (content : List Char) : List Char :=
  dnsInject (replaceAll "DNS = 1.0.0.1".toList "#DNS = 1.0.0.1".toList
    (replaceAll "DNS = 1.1.1.1".toList "#DNS = 1.1.1.1".toList content))

end WGCFManager

/- Helper lemmas about `containsSub` and `replaceAll`. -/

theorem containsSub_of_isPrefixOf (pat : List Char) :
    ∀ s : List Char, pat.isPrefixOf s = true → containsSub pat s = true := by
  intro s h
  cases s with
  | nil =>
    cases pat with
    | nil => simp [containsSub]
    | cons a as => simp [List.isPrefixOf] at h
  | cons c rest =>
    simp [containsSub, h]

theorem containsSub_of_cons (a : Char) (pat : List Char) :
    ∀ s : List Char, containsSub (a :: pat) s = true → containsSub pat s = true := by
  intro s
  induction s with
  | nil => simp [containsSub, List.isEmpty]
  | cons c rest ih =>
    intro h
    simp only [containsSub, Bool.or_eq_true] at h ⊢
    rcases h with h | h
    · simp only [List.isPrefixOf, Bool.and_eq_true] at h
      right
      exact containsSub_of_isPrefixOf pat rest h.2
    · right
      exact ih h

theorem replFuel_of_not_contains (pat rep : List Char) :
    ∀ s : List Char, ∀ fuel : Nat, fuel = s.length →
      containsSub pat s = false → replFuel pat rep fuel s = s := by
  intro s
  induction s with
  | nil =>
    intro fuel _ _
    cases fuel <;> simp [replFuel]
  | cons c rest ih =>
    intro fuel hf h
    simp only [containsSub, Bool.or_eq_false_iff] at h
    subst hf
    simp only [List.length_cons, replFuel, h.1, false_and, if_false]
    exact congrArg (c :: ·) (ih rest.length rfl h.2)

theorem replaceAll_of_not_contains (pat rep s : List Char)
    (h : containsSub pat s = false) : replaceAll pat rep s = s :=
  replFuel_of_not_contains pat rep s s.length rfl h

/-- C2, amended part: on a profile content that mentions neither Cloudflare
DNS line, the patch transformation is the identity. -/
theorem modify_profile_identity (c : List Char)
    (h1 : containsSub "DNS = 1.1.1.1".toList c = false)
    (h2 : containsSub "DNS = 1.0.0.1".toList c = false) :
    WGCFManager.modify_profile_for_nextdns c = c := by
  have h3 : containsSub "#DNS = 1.1.1.1".toList c = false := by
    cases h : containsSub "#DNS = 1.1.1.1".toList c with
    | false => rfl
    | true =>
      have : containsSub "DNS = 1.1.1.1".toList c = true := by
        have := containsSub_of_cons '#' "DNS = 1.1.1.1".toList c
        simpa using this (by simpa using h)
      rw [this] at h1
      exact absurd h1 (by simp)
  unfold WGCFManager.modify_profile_for_nextdns WGCFManager.dnsInject
  rw [replaceAll_of_not_contains _ _ _ h1, replaceAll_of_not_contains _ _ _ h2]
  by_cases hc : containsSub "#DNS = ".toList c = true ∧ ¬ (containsSub "DNS = 127.0.0.1".toList c = true)
  · rw [if_pos hc, replaceAll_of_not_contains _ _ _ h3]
  · rw [if_neg hc]

/-- C2 counterexample: on the content consisting of the single Cloudflare
DNS line, applying the patch twice does not equal applying it once (a second
run prepends an extra comment character). -/
theorem c2_counterexample :
    WGCFManager.modify_profile_for_nextdns
        (WGCFManager.modify_profile_for_nextdns "DNS = 1.1.1.1".toList) ≠
      WGCFManager.modify_profile_for_nextdns "DNS = 1.1.1.1".toList := by
  decide

/-- C2 (amended): the DNS-patch transformation is idempotent on contents
that contain no occurrence of the substrings `DNS = 1.1.1.1` or
`DNS = 1.0.0.1`; on such contents it is the identity.  (On contents that do
contain them, a second application prepends a further comment character, as
the counterexample shows.) -/
theorem c2_patch_idempotent_on_clean (c : List Char)
    (h1 : containsSub "DNS = 1.1.1.1".toList c = false)
    (h2 : containsSub "DNS = 1.0.0.1".toList c = false) :
    WGCFManager.modify_profile_for_nextdns (WGCFManager.modify_profile_for_nextdns c) =
      WGCFManager.modify_profile_for_nextdns c := by
  rw [modify_profile_identity c h1 h2, modify_profile_identity c h1 h2]

/-- Witness for C2: a concrete content satisfying the hypotheses. -/
theorem c2_patch_idempotent_on_clean_witness :
    WGCFManager.modify_profile_for_nextdns
        (WGCFManager.modify_profile_for_nextdns "[Interface]\nMTU = 1280".toList) =
      WGCFManager.modify_profile_for_nextdns "[Interface]\nMTU = 1280".toList :=
  c2_patch_idempotent_on_clean _ (by decide) (by decide)

/- ## PlatformUtils.check_root_access (src/utils/platform_utils.py:25-38)

On Linux the effective uid is compared with 0.  On Windows the
`IsUserAnAdmin` query is attempted inside a bare try/except that maps any
exception to `False`.  On macOS and unknown systems the result is `False`.
The query outcomes are passed in explicitly: `euid` is the Linux effective
uid and `winAdmin` is the Windows shell query, `Except.error` standing for
a raised exception. -/

namespace PlatformUtils

inductive OSKind
  | linux
  | windows
  | macos
  | other
deriving DecidableEq

/-- Model of `PlatformUtils.check_root_access`. -/
def check_root_access (os : OSKind) (euid : Nat) (winAdmin : Except Unit Int) : Bool :=
  match os with
  | .linux => euid == 0
  | .windows =>
    match winAdmin with
    | .ok v => v != 0
    | .error _ => false
  | .macos => false
  | .other => false

end PlatformUtils

/-- C8: on every system kind and for every outcome of the underlying
privilege query (including a raised exception on the Windows path), the
privilege check evaluates to a boolean, true exactly when the query
reported elevation; in particular it never propagates an exception (the
model is a total function into `Bool`). -/
theorem c8_check_root_access_total (os : PlatformUtils.OSKind) (euid : Nat)
    (winAdmin : Except Unit Int) :
    PlatformUtils.check_root_access os euid winAdmin = true ↔
      (os = .linux ∧ euid = 0) ∨
      (os = .windows ∧ ∃ v : Int, winAdmin = .ok v ∧ v ≠ 0) := by
  cases os <;> simp [PlatformUtils.check_root_access]
  cases winAdmin with
  | ok v => simp
  | error e => simp

/- ## WarpNextDNSManager.download_with_retry (src/src/core.py:119-135)

The loop makes up to `max_retries = 3` attempts.  An attempt has three
possible outcomes: the inner download call returns `True` (the function
returns immediately), it returns `False` (the loop proceeds directly to
the next attempt), or it raises (the exception is caught, and when the
attempt is not the last one the loop sleeps `2 ** attempt` seconds before
continuing). -/

namespace Retry

inductive AttemptOutcome
  | succ
  | retFalse
  | raise
deriving DecidableEq

/-- Result of a retry run: the returned boolean, the list of performed
back-off sleeps in seconds (in order), and the number of attempts made. -/
structure RunResult where
  result : Bool
  sleeps : List Nat
  attempts : Nat
deriving DecidableEq

/-- The `for attempt in range(max_retries)` loop of
`download_with_retry`, with `f i` the outcome of attempt `i`. -/
def loop (f : Nat → AttemptOutcome) (maxRetries : Nat) : Nat → Nat → RunResult
  | _, 0 => ⟨false, [], 0⟩
  | attempt, remaining + 1 =>
    match f attempt with
    | .succ => ⟨true, [], 1⟩
    | .retFalse =>
      let r := loop f maxRetries (attempt + 1) remaining
      ⟨r.result, r.sleeps, r.attempts + 1⟩
    | .raise =>
      let r := loop f maxRetries (attempt + 1) remaining
      if attempt < maxRetries - 1 then
        ⟨r.result, 2 ^ attempt :: r.sleeps, r.attempts + 1⟩
      else
        ⟨r.result, r.sleeps, r.attempts + 1⟩

/-- Model of `WarpNextDNSManager.download_with_retry` at its default
`max_retries = 3`. -/
def download_with_retry (f : Nat → AttemptOutcome) : RunResult :=
  loop f 3 0 3

end Retry

/-- C6 counterexample: when every attempt fails by returning `False`
(rather than raising), all three attempts are made and the function
returns `False`, but no back-off sleep at all is performed — contradicting
the claim that the loop sleeps `2 ** attempt` seconds between consecutive
failed attempts. -/
theorem c6_counterexample :
    (Retry.download_with_retry (fun _ => .retFalse)).result = false ∧
    (Retry.download_with_retry (fun _ => .retFalse)).attempts = 3 ∧
    (Retry.download_with_retry (fun _ => .retFalse)).sleeps = [] ∧
    (Retry.download_with_retry (fun _ => .retFalse)).sleeps ≠ [2 ^ 0, 2 ^ 1] := by
  decide

/-- C6 (amended): for every sequence of attempt outcomes the loop makes at
most 3 attempts; it returns `True` exactly when one of the three attempts
succeeds (stopping right after the first success, so the attempt count is
the index of the first success plus one, or 3 when none succeeds); and the
performed sleeps are exactly `2 ^ i` for those executed attempts `i` that
failed by raising an exception and are not the last possible attempt —
attempts that fail by returning `False` are not followed by a sleep. -/
theorem c6_download_with_retry_characterization (f : Nat → Retry.AttemptOutcome) :
    (Retry.download_with_retry f).attempts ≤ 3 ∧
    ((Retry.download_with_retry f).result = true ↔
      (f 0 = .succ ∨ f 1 = .succ ∨ f 2 = .succ)) ∧
    (Retry.download_with_retry f).attempts =
      (if f 0 = .succ then 1 else if f 1 = .succ then 2 else 3) ∧
    (Retry.download_with_retry f).sleeps =
      ((List.range (Retry.download_with_retry f).attempts).filter
        (fun i => decide (f i = .raise) && decide (i < 2))).map (fun i => 2 ^ i) := by
  cases h0 : f 0 <;> cases h1 : f 1 <;> cases h2 : f 2 <;>
    simp [Retry.download_with_retry, Retry.loop, h0, h1, h2, List.range_succ]

/- ## ErrorHandler (src/utils/error_handler.py)

`handle_error` builds an information record whose message and suggestion
fields come from static lookup tables keyed by the exception type name and
the context string.  The automatic-recovery probes (existence of the wgcf
binary at a few paths, one connectivity request) are passed in explicitly;
a freshly constructed handler has no custom strategies and no callbacks,
which is the configuration `handle_error` is used in. -/

namespace ErrorHandler

/-- The static message table of `_get_user_friendly_message`: for each
exception type name, the context-keyed messages including the `default`
entry. -/
def error_messages : List (String × List (String × String)) :=
  [("FileNotFoundError",
    [("default", "Required file or directory not found"),
     ("wgcf", "wgcf tool not found. Please install it first."),
     ("wireguard", "WireGuard configuration not found"),
     ("nextdns", "NextDNS configuration not found")]),
   ("PermissionError",
    [("default", "Permission denied. Try running with administrator privileges."),
     ("wireguard", "Permission denied accessing WireGuard. Run with sudo."),
     ("nextdns", "Permission denied accessing NextDNS configuration.")]),
   ("ConnectionError",
    [("default", "Network connection failed. Check your internet connection."),
     ("warp", "Failed to connect to Cloudflare WARP servers."),
     ("nextdns", "Failed to connect to NextDNS servers.")]),
   ("TimeoutError",
    [("default", "Operation timed out. Please try again."),
     ("warp", "WARP connection timed out."),
     ("nextdns", "NextDNS connection timed out.")]),
   ("subprocess.TimeoutExpired",
    [("default", "Command execution timed out."),
     ("wgcf", "wgcf command timed out."),
     ("wireguard", "WireGuard command timed out.")]),
   ("subprocess.CalledProcessError",
    [("default", "Command execution failed."),
     ("wgcf", "wgcf command failed."),
     ("wireguard", "WireGuard command failed."),
     ("nextdns", "NextDNS command failed.")])]

/-- Model of `ErrorHandler._get_user_friendly_message`. -/
def get_user_friendly_message (errorType errMsg ctx : String) : String :=
  match error_messages.lookup errorType with
  | some m =>
    match m.lookup ctx with
    | some s => s
    | none => (m.lookup "default").getD ""
  | none => "An unexpected error occurred: " ++ errMsg

/-- The three general suggestions always appended by
`_get_recovery_suggestions`. -/
def generalSuggestions : List String :=
  ["Check the logs for more detailed information",
   "Restart the application",
   "Contact support if the issue persists"]

/-- Model of `ErrorHandler._get_recovery_suggestions` (type-specific
suggestions, selected by exception type name and substring tests on the
context, followed by the general ones). -/
def get_recovery_suggestions (errorType ctx : String) : List String :=
  (if errorType = "FileNotFoundError" then
    (if containsSub "wgcf".toList ctx.toList then
      ["Install wgcf using the \u0027Install wgcf\u0027 button",
       "Download wgcf manually from https://github.com/ViRb3/wgcf/releases",
       "Ensure wgcf is in your system PATH"]
    else if containsSub "wireguard".toList ctx.toList then
      ["Run WireGuard setup using the \u0027Setup Config\u0027 button",
       "Check if WireGuard is properly installed",
       "Verify configuration file permissions"]
    else if containsSub "nextdns".toList ctx.toList then
      ["Install NextDNS CLI using your package manager",
       "Configure NextDNS with your profile ID",
       "Check NextDNS configuration file"]
    else [])
  else if errorType = "PermissionError" then
    ["Run the application with administrator privileges",
     "Check file and directory permissions",
     "Use sudo for Linux operations"]
  else if errorType = "ConnectionError" then
    ["Check your internet connection",
     "Verify firewall settings",
     "Try using a different network",
     "Check if Cloudflare/NextDNS services are accessible"]
  else if errorType = "TimeoutError" then
    ["Check your internet connection speed",
     "Try again in a few moments",
     "Check if the service is experiencing issues"]
  else []) ++ generalSuggestions

/-- Model of `ErrorHandler._get_error_severity`. -/
def get_error_severity (errorType : String) : String :=
  if errorType = "KeyboardInterrupt" ∨ errorType = "SystemExit" then "critical"
  else if errorType = "PermissionError" ∨ errorType = "ConnectionError" ∨
      errorType = "TimeoutError" then "high"
  else if errorType = "FileNotFoundError" ∨ errorType = "subprocess.CalledProcessError" then
    "medium"
  else "low"

/-- Outcome of one automatic recovery strategy. -/
structure RecoveryResult where
  success : Bool
  message : String
deriving DecidableEq

/-- The hardcoded candidate paths of `_recover_file_not_found`. -/
def common_paths : List String := ["wgcf", "/usr/local/bin/wgcf", "/usr/bin/wgcf"]

/-- Model of `ErrorHandler._recover_file_not_found`; `pathExists` is the
outcome of `os.path.exists` per path. -/
def recover_file_not_found (pathExists : String → Bool) (ctx : String) : RecoveryResult :=
  if containsSub "wgcf".toList ctx.toList then
    match common_paths.find? pathExists with
    | some p => ⟨true, "Found wgcf at " ++ p⟩
    | none => ⟨false, "File not found, manual intervention required"⟩
  else ⟨false, "File not found, manual intervention required"⟩

/-- Model of `ErrorHandler._recover_permission_error`. -/
def recover_permission_error : RecoveryResult :=
  ⟨false, "Permission error requires manual intervention"⟩

/-- Model of `ErrorHandler._recover_connection_error`; `conn` is the
outcome of the connectivity request (status code, or a raised exception
swallowed by the bare except). -/
def recover_connection_error (conn : Except Unit Nat) : RecoveryResult :=
  match conn with
  | .ok 200 => ⟨true, "Internet connectivity restored"⟩
  | .ok _ => ⟨false, "Connection error, check network settings"⟩
  | .error _ => ⟨false, "Connection error, check network settings"⟩

/-- Model of `ErrorHandler._attempt_recovery` for a handler with no custom
recovery strategies registered. -/
def attempt_recovery (pathExists : String → Bool) (conn : Except Unit Nat)
    (errorType ctx : String) : RecoveryResult :=
  if errorType = "FileNotFoundError" then recover_file_not_found pathExists ctx
  else if errorType = "PermissionError" then recover_permission_error
  else if errorType = "ConnectionError" then recover_connection_error conn
  else ⟨false, "No automatic recovery available"⟩

/-- The record built by `handle_error` (the `traceback` and timestamp
fields are opaque strings passed through). -/
structure ErrorInfo where
  timestamp : String
  error_type : String
  error_message : String
  context : String
  user_friendly_message : String
  recovery_suggestions : List String
  severity : String
  handled : Bool
  recovery_message : Option String
deriving DecidableEq

/-- Model of `ErrorHandler.handle_error` for a handler with no custom
strategies and no callbacks. -/
def handle_error (pathExists : String → Bool) (conn : Except Unit Nat)
    (timestamp errorType errMsg ctx : String) : ErrorInfo :=
  let rr := attempt_recovery pathExists conn errorType ctx
  { timestamp := timestamp
    error_type := errorType
    error_message := errMsg
    context := ctx
    user_friendly_message := get_user_friendly_message errorType errMsg ctx
    recovery_suggestions := get_recovery_suggestions errorType ctx
    severity := get_error_severity errorType
    handled := rr.success
    recovery_message := if rr.success then some rr.message else none }

end ErrorHandler

/-- C7: for every exception type name, message, context and recovery-probe
outcome, `handle_error` returns (never raises: the model is total) a record
whose human-readable message and suggestion list are exactly the static
lookups keyed by the exception type name and the context string; the
suggestion list is never empty (the general suggestions are always
appended), and an exception type absent from the table falls back to the
generic message built from the exception text. -/
theorem c7_handle_error_lookup (pathExists : String → Bool) (conn : Except Unit Nat)
    (timestamp errorType errMsg ctx : String) :
    (ErrorHandler.handle_error pathExists conn timestamp errorType errMsg ctx).user_friendly_message
        = ErrorHandler.get_user_friendly_message errorType errMsg ctx ∧
    (ErrorHandler.handle_error pathExists conn timestamp errorType errMsg ctx).recovery_suggestions
        = ErrorHandler.get_recovery_suggestions errorType ctx ∧
    (ErrorHandler.handle_error pathExists conn timestamp errorType errMsg ctx).recovery_suggestions
        ≠ [] ∧
    (ErrorHandler.error_messages.lookup errorType = none →
      (ErrorHandler.handle_error pathExists conn timestamp errorType errMsg ctx).user_friendly_message
        = "An unexpected error occurred: " ++ errMsg) := by
  refine ⟨rfl, rfl, ?_, ?_⟩
  · simp [ErrorHandler.handle_error, ErrorHandler.get_recovery_suggestions,
      ErrorHandler.generalSuggestions]
  · intro h
    simp [ErrorHandler.handle_error, ErrorHandler.get_user_friendly_message, h]

/- ## WarpNextDNSManager.get_status (src/src/core.py:280-349)

The whole body sits in one try/except.  The four service/tool probes
(`get_service_status` on both managers, `is_installed` on both) may raise,
in which case the except branch replaces the entire mapping by a single
`Error` entry.  The three network helpers catch their own exceptions and
return a default (`False`, `None`, `[]` respectively), so they never
raise.  Probe outcomes are inputs; `Except.error` marks a raised call. -/

namespace CoreManager

/-- The dict returned by a service-status probe (fields read with
`.get(..., default)`). -/
structure SvcStatus where
  running : Option Bool
  details : Option String
deriving DecidableEq

/-- One `status`/`details` cell of the status table. -/
structure Entry where
  status : String
  details : String
deriving DecidableEq

/-- All probe outcomes feeding one `get_status` call. -/
structure StatusInputs where
  warp_status : Except Unit SvcStatus
  nextdns_status : Except Unit SvcStatus
  wgcf_installed : Except Unit Bool
  nextdns_installed : Except Unit Bool
  internet_response : Except Unit Nat
  warp_ip_response : Except Unit String
  dns_output : Except Unit String
  win32 : Bool
  system_details : String
  now : String

/-- Model of `WarpNextDNSManager.check_internet_connection`: any raised
request maps to `False`, otherwise the status code is compared to 200. -/
def check_internet_connection (r : Except Unit Nat) : Bool :=
  match r with
  | .ok code => code == 200
  | .error _ => false

/-- Model of `WarpNextDNSManager.get_warp_ip`: any raised request maps to
`None`, otherwise the stripped response body is returned. -/
def get_warp_ip (r : Except Unit String) : Option String :=
  match r with
  | .ok t => some t.trim
  | .error _ => none

/-- Python `line.split()`: split on whitespace runs, dropping empties. -/
def pySplitWs (l : String) : List String :=
  (l.split Char.isWhitespace).filter (fun t => t ≠ "")

/-- One line of the Windows `ipconfig /all` parse: lines mentioning
`DNS Servers` contribute the stripped text after the last colon when it is
non-empty. -/
def parse_ipconfig_line (line : String) : Option String :=
  if containsSub "DNS Servers".toList line.toList then
    let dns := ((line.splitOn ":").getLastD "").trim
    if dns ≠ "" then some dns else none
  else none

/-- Linux `resolv.conf` parse: `nameserver` lines contribute their second
whitespace token; a `nameserver` line with no second token raises
IndexError (`none`), which aborts the whole parse. -/
def parse_resolv_lines : List String → Option (List String)
  | [] => some []
  | l :: ls =>
    if l.startsWith "nameserver" then
      match (pySplitWs l).get? 1 with
      | none => none
      | some dns => (parse_resolv_lines ls).map (dns :: ·)
    else parse_resolv_lines ls

/-- Model of `WarpNextDNSManager.get_dns_servers`: a raised subprocess call
or a parse exception yields `[]`. -/
def get_dns_servers (win32 : Bool) (out : Except Unit String) : List String :=
  match out with
  | .error _ => []
  | .ok s =>
    if win32 then (s.splitOn "\n").filterMap parse_ipconfig_line
    else
      match parse_resolv_lines (s.splitOn "\n") with
      | none => []
      | some ds => ds

/-- Python truthiness of the optional WARP IP string (`None` and the empty
string are falsy). -/
def pyTruthy : Option String → Bool
  | none => false
  | some s => s ≠ ""

/-- The component names of the status table, in source order. -/
def knownComponents : List String :=
  ["System", "WARP Service", "NextDNS Service", "WGCF Tool", "NextDNS Tool",
   "Internet Connection", "WARP IP", "DNS Servers"]

/-- Model of `WarpNextDNSManager.get_status`.  When any of the four
service/tool probes raises, the except branch returns the single-entry
`Error` mapping; otherwise the full component table plus the
`Last Updated` row is produced. -/
def get_status (i : StatusInputs) : List (String × Entry) :=
  match i.warp_status, i.nextdns_status, i.wgcf_installed, i.nextdns_installed with
  | .ok ws, .ok ns, .ok wi, .ok ni =>
    let internet := check_internet_connection i.internet_response
    let warpIp := get_warp_ip i.warp_ip_response
    let dns := get_dns_servers i.win32 i.dns_output
    [("System", ⟨"Active", i.system_details⟩),
     ("WARP Service",
      ⟨if ws.running.getD false then "Running" else "Stopped",
       ws.details.getD "Service status unknown"⟩),
     ("NextDNS Service",
      ⟨if ns.running.getD false then "Running" else "Stopped",
       ns.details.getD "Service status unknown"⟩),
     ("WGCF Tool",
      ⟨if wi then "Installed" else "Not Installed", "WireGuard configuration tool"⟩),
     ("NextDNS Tool",
      ⟨if ni then "Installed" else "Not Installed", "DNS filtering tool"⟩),
     ("Internet Connection",
      ⟨if internet then "Connected" else "Disconnected", "Network connectivity check"⟩),
     ("WARP IP",
      ⟨if pyTruthy warpIp then "Active" else "Inactive",
       if pyTruthy warpIp then warpIp.getD "" else "No WARP IP detected"⟩),
     ("DNS Servers",
      ⟨if dns ≠ [] then "Configured" else "Not Configured",
       if dns ≠ [] then String.intercalate ", " dns else "No DNS servers found"⟩),
     ("Last Updated", ⟨i.now, "Real-time status"⟩)]
  | _, _, _, _ =>
    [("Error", ⟨"Failed", "Status check failed"⟩)]

/-- A concrete probe assignment in which the WARP service-status probe
raises and every other probe succeeds. -/
def failInput : StatusInputs :=
  ⟨.error (), .ok ⟨some true, none⟩, .ok true, .ok true, .ok 200, .ok "1.2.3.4",
   .ok "nameserver 127.0.0.1", false, "Linux x86_64 - Python 3.11", "12:00:00"⟩

end CoreManager

/-- C1 counterexample: when one probe raises (here the WARP service-status
query, with every other probe succeeding), `get_status` returns the
single-entry `Error` mapping, so the known components — `System` among
them — have no entry, contrary to the claim that an entry per component is
returned for every probe outcome including exceptions. -/
theorem c1_counterexample :
    (CoreManager.get_status CoreManager.failInput).map Prod.fst = ["Error"] ∧
    ¬ ("System" ∈ (CoreManager.get_status CoreManager.failInput).map Prod.fst) := by
  decide

/-- C1 (amended): whenever none of the four service/tool probes raises
(the internet, IP and DNS probes swallow their own exceptions and can
never abort the call), the returned mapping consists of exactly one
`status`/`details` entry per known component — System, WARP Service,
NextDNS Service, WGCF Tool, NextDNS Tool, Internet Connection, WARP IP,
DNS Servers — plus the `Last Updated` row; in particular each known
component occurs exactly once.  When a probe raises, the mapping collapses
to the single `Error` entry instead. -/
theorem c1_status_components (i : CoreManager.StatusInputs)
    (h1 : ∃ v, i.warp_status = Except.ok v)
    (h2 : ∃ v, i.nextdns_status = Except.ok v)
    (h3 : ∃ v, i.wgcf_installed = Except.ok v)
    (h4 : ∃ v, i.nextdns_installed = Except.ok v) :
    (CoreManager.get_status i).map Prod.fst =
      CoreManager.knownComponents ++ ["Last Updated"] ∧
    ∀ n ∈ CoreManager.knownComponents,
      ((CoreManager.get_status i).map Prod.fst).count n = 1 := by
  obtain ⟨ws, e1⟩ := h1
  obtain ⟨ns, e2⟩ := h2
  obtain ⟨wi, e3⟩ := h3
  obtain ⟨ni, e4⟩ := h4
  have hkeys : (CoreManager.get_status i).map Prod.fst =
      CoreManager.knownComponents ++ ["Last Updated"] := by
    simp [CoreManager.get_status, e1, e2, e3, e4, CoreManager.knownComponents]
  refine ⟨hkeys, ?_⟩
  rw [hkeys]
  decide

/-- Witness for C1: a concrete probe assignment in which no probe raises. -/
theorem c1_status_components_witness :
    (CoreManager.get_status
      ⟨.ok ⟨some true, some "up"⟩, .ok ⟨some false, none⟩, .ok true, .ok false,
       .ok 200, .ok "1.2.3.4", .ok "nameserver 9.9.9.9", false,
       "Linux x86_64 - Python 3.11", "12:00:00"⟩).map Prod.fst =
      CoreManager.knownComponents ++ ["Last Updated"] ∧
    ∀ n ∈ CoreManager.knownComponents,
      ((CoreManager.get_status
        ⟨.ok ⟨some true, some "up"⟩, .ok ⟨some false, none⟩, .ok true, .ok false,
         .ok 200, .ok "1.2.3.4", .ok "nameserver 9.9.9.9", false,
         "Linux x86_64 - Python 3.11", "12:00:00"⟩).map Prod.fst).count n = 1 :=
  c1_status_components _ ⟨_, rfl⟩ ⟨_, rfl⟩ ⟨_, rfl⟩ ⟨_, rfl⟩

/- ## WarpNextDNSManager.quick_setup (src/src/core.py:420-464)

A sequential pipeline: elevation, dependency install (both tools),
WGCF setup, NextDNS configuration (only in auto mode, where the default
profile id is used), service creation, service start.  Every constituent
helper catches its own exceptions and reports failure through its return
value, so at this level each step has a boolean outcome.  The pipeline
returns `False` at the first failing step without running any later step
and performs no rollback. -/

namespace QuickSetup

inductive Step
  | elevation
  | installDeps
  | wgcfSetup
  | nextdnsConfig
  | createServices
  | startServices
deriving DecidableEq

/-- Outcomes of the pipeline steps (exceptions inside a step are already
mapped to a failing outcome by the step itself, as in the source). -/
structure SetupInputs where
  elevation_ok : Bool
  wgcf_install_ok : Bool
  nextdns_install_ok : Bool
  wgcf_setup_ok : Bool
  nextdns_setup_ok : Bool
  create_services_ok : Bool
  start_services_ok : Bool
deriving DecidableEq

/-- Run one pipeline step: extend the executed trace, and abort (`error`)
when the step fails. -/
def runStep (s : Step) (ok : Bool) (acc : List Step) : Except (List Step) (List Step) :=
  if ok then .ok (acc ++ [s]) else .error (acc ++ [s])

/-- Model of `WarpNextDNSManager.quick_setup`: the returned boolean
together with the ordered trace of executed steps. -/
def quick_setup (auto_mode : Bool) (i : SetupInputs) : Bool × List Step :=
  let r : Except (List Step) (List Step) := do
    let t ← runStep .elevation i.elevation_ok []
    let t ← runStep .installDeps (i.wgcf_install_ok && i.nextdns_install_ok) t
    let t ← runStep .wgcfSetup i.wgcf_setup_ok t
    let t ← if auto_mode then runStep .nextdnsConfig i.nextdns_setup_ok t else pure t
    let t ← runStep .createServices i.create_services_ok t
    runStep .startServices i.start_services_ok t
  match r with
  | .ok t => (true, t)
  | .error t => (false, t)

/-- The outcome of each step, read off the inputs (dependency install
succeeds when both tools install). -/
def stepOutcome (i : SetupInputs) : Step → Bool
  | .elevation => i.elevation_ok
  | .installDeps => i.wgcf_install_ok && i.nextdns_install_ok
  | .wgcfSetup => i.wgcf_setup_ok
  | .nextdnsConfig => i.nextdns_setup_ok
  | .createServices => i.create_services_ok
  | .startServices => i.start_services_ok

/-- The fixed step order of the pipeline (the NextDNS step only in auto
mode). -/
def plannedSteps (auto_mode : Bool) : List Step :=
  [.elevation, .installDeps, .wgcfSetup] ++
    (if auto_mode then [.nextdnsConfig] else []) ++
    [.createServices, .startServices]

/-- The prefix of a step list up to and including the first failing step;
the whole list when every step succeeds. -/
def takeUntilFailure (ok : Step → Bool) : List Step → List Step
  | [] => []
  | s :: rest => if ok s then s :: takeUntilFailure ok rest else [s]

/-- Specification following the claim wording: the steps are attempted in
the fixed planned order, execution stops right after the first failure,
and the result is `True` exactly when every planned step succeeds. -/
def quickSetupSpec (auto_mode : Bool) (i : SetupInputs) : Bool × List Step :=
  ((plannedSteps auto_mode).all (stepOutcome i),
   takeUntilFailure (stepOutcome i) (plannedSteps auto_mode))

end QuickSetup

/-- C5: for every step-outcome assignment and both modes, `quick_setup`
equals the claimed pipeline behaviour: the executed trace is the fixed
planned order truncated right after the first failing step (so no later
step runs once one fails), the returned boolean is `True` exactly when
every planned step succeeds, and the trace is a duplicate-free prefix of
the planned order (each step runs at most once and nothing is re-run or
rolled back). -/
theorem c5_quick_setup_pipeline (auto_mode : Bool) (i : QuickSetup.SetupInputs) :
    QuickSetup.quick_setup auto_mode i = QuickSetup.quickSetupSpec auto_mode i ∧
    (QuickSetup.quick_setup auto_mode i).2 <+: QuickSetup.plannedSteps auto_mode ∧
    (QuickSetup.quick_setup auto_mode i).2.Nodup := by
  rcases i with ⟨e, wi, ni, ws, nd, cs, ss⟩
  cases auto_mode <;> cases e <;> cases wi <;> cases ni <;> cases ws <;>
    cases nd <;> cases cs <;> cases ss <;> decide

/- ## BackupManager retention (src/utils/backup_manager.py:360-377,445-455)

`list_backups` globs `*.tar.gz` then `*.zip` in the backup directory and
sorts the result by the `created` timestamp — `st_ctime`, not `st_mtime` —
newest first (Python sorts are stable, which the structural insertion sort
with a non-strict descending comparator reproduces).  `_cleanup_old_backups`
deletes every backup past index `max_backups` of that ordering.
`create_backup` ends with `_cleanup_old_backups`, so the post-creation
directory state is the cleanup of the directory extended by the new
archive.  A file is a record of its name and its two stat timestamps. -/

namespace BackupManager

/-- A file of the backup directory: its name and stat timestamps
(`created` models `st_ctime`, `modified` models `st_mtime`). -/
structure BFile where
  name : List Char
  created : Nat
  modified : Nat
deriving DecidableEq

/-- Whether a file is matched by one of the two archive globs. -/
def isArchiveFile (f : BFile) : Bool :=
  ".tar.gz".toList.isSuffixOf f.name || ".zip".toList.isSuffixOf f.name

/-- The two globs of `list_backups`, in source order. -/
def globArchives (files : List BFile) : List BFile :=
  files.filter (fun f => ".tar.gz".toList.isSuffixOf f.name) ++
    files.filter (fun f => ".zip".toList.isSuffixOf f.name)

/-- Model of `BackupManager.list_backups`: both globs, sorted by the
`created` timestamp, newest first, stable. -/
def list_backups (files : List BFile) : List BFile :=
  List.insertionSort (fun a b => b.created ≤ a.created) (globArchives files)

/-- Model of `BackupManager._cleanup_old_backups`: when more than
`max_backups` backups are listed, every backup past that index is deleted
from the directory; the result is the remaining directory content. -/
def cleanup_old_backups (max_backups : Nat) (files : List BFile) : List BFile :=
  let backups := list_backups files
  if max_backups < backups.length then
    files.filter (fun f => !((backups.drop max_backups).contains f))
  else files

/-- The directory state after one `create_backup` call: the new archive is
written and `_cleanup_old_backups` runs. -/
def create_backup_retention (max_backups : Nat) (newArchive : BFile)
    (files : List BFile) : List BFile :=
  cleanup_old_backups max_backups (files ++ [newArchive])

/-- Modelled from the claim wording: the `N` most recent archives by
mtime (`st_mtime`), newest first, stable. -/
def keptByMtimeSpec (n : Nat) (files : List BFile) : List BFile :=
  (List.insertionSort (fun a b => b.modified ≤ a.modified) (globArchives files)).take n

/-- A backup archive whose ctime is newer but whose mtime is older. -/
def fileA : BFile := ⟨"a.tar.gz".toList, 2, 1⟩

/-- A backup archive whose ctime is older but whose mtime is newer. -/
def fileB : BFile := ⟨"b.tar.gz".toList, 1, 2⟩

end BackupManager

/-- C4 counterexample: with `max_backups = 1`, creating archive `fileB`
(ctime 1, mtime 2) in a directory holding `fileA` (ctime 2, mtime 1) keeps
`fileA` — the most recent by ctime — whereas the most recent archive by
mtime is `fileB`; so the kept set is not the most recent by mtime. -/
theorem c4_counterexample :
    BackupManager.create_backup_retention 1 BackupManager.fileB [BackupManager.fileA] =
      [BackupManager.fileA] ∧
    BackupManager.keptByMtimeSpec 1 [BackupManager.fileA, BackupManager.fileB] =
      [BackupManager.fileB] ∧
    BackupManager.fileA ≠ BackupManager.fileB := by
  decide

/- Helper lemmas for the retention analysis. -/

theorem archive_not_both (l : List Char)
    (h1 : ".tar.gz".toList.isSuffixOf l = true)
    (h2 : ".zip".toList.isSuffixOf l = true) : False := by
  rw [List.isSuffixOf_iff_suffix] at h1 h2
  rcases List.suffix_or_suffix_of_suffix h1 h2 with h | h
  · exact absurd h (by decide)
  · exact absurd h (by decide)

theorem mem_list_backups (files : List BackupManager.BFile) (f : BackupManager.BFile) :
    f ∈ BackupManager.list_backups files ↔
      f ∈ files ∧ BackupManager.isArchiveFile f = true := by
  unfold BackupManager.list_backups BackupManager.globArchives BackupManager.isArchiveFile
  rw [(List.perm_insertionSort _ _).mem_iff]
  simp only [List.mem_append, List.mem_filter, Bool.or_eq_true]
  tauto

theorem nodup_list_backups (files : List BackupManager.BFile) (h : files.Nodup) :
    (BackupManager.list_backups files).Nodup := by
  have hg : (BackupManager.globArchives files).Nodup := by
    unfold BackupManager.globArchives
    rw [List.nodup_append]
    refine ⟨h.filter _, h.filter _, ?_⟩
    intro f hf1 hf2
    rw [List.mem_filter] at hf1 hf2
    exact archive_not_both f.name hf1.2 hf2.2
  exact (List.perm_insertionSort _ _).symm.nodup hg

theorem mem_take_iff_of_nodup {α : Type} [DecidableEq α] {l : List α} (h : l.Nodup)
    (n : Nat) (x : α) : x ∈ l.take n ↔ x ∈ l ∧ x ∉ l.drop n := by
  constructor
  · intro hx
    refine ⟨List.take_subset n l hx, ?_⟩
    have hd : (l.take n).Disjoint (l.drop n) := by
      have h2 := h
      rw [← List.take_append_drop n l, List.nodup_append] at h2
      exact h2.2.2
    exact fun hdx => hd hx hdx
  · rintro ⟨hl, hd⟩
    have hx : x ∈ l.take n ++ l.drop n := by
      rw [List.take_append_drop]
      exact hl
    rcases List.mem_append.mp hx with h1 | h2
    · exact h1
    · exact absurd h2 hd

theorem contains_iff_mem_bfile (l : List BackupManager.BFile) (x : BackupManager.BFile) :
    l.contains x = true ↔ x ∈ l := by
  simp [List.contains, List.elem_iff]

/-- The membership part of the retention invariant: an archive file is in
the directory after cleanup exactly when it is among the first
`max_backups` entries of the ctime-sorted backup listing. -/
theorem cleanup_mem_iff (maxB : Nat) (L : List BackupManager.BFile)
    (hnd : L.Nodup) (f : BackupManager.BFile)
    (hf : BackupManager.isArchiveFile f = true) :
    f ∈ BackupManager.cleanup_old_backups maxB L ↔
      f ∈ (BackupManager.list_backups L).take maxB := by
  have hBnodup := nodup_list_backups L hnd
  have hmem := mem_list_backups L f
  by_cases hlen : maxB < (BackupManager.list_backups L).length
  · simp only [BackupManager.cleanup_old_backups, if_pos hlen]
    rw [List.mem_filter]
    rw [mem_take_iff_of_nodup hBnodup]
    have hcont : (!((BackupManager.list_backups L).drop maxB).contains f) = true ↔
        ¬ f ∈ (BackupManager.list_backups L).drop maxB := by
      rw [Bool.not_eq_true', ← Bool.not_eq_true, not_iff_not]
      exact contains_iff_mem_bfile _ f
    rw [hcont]
    constructor
    · rintro ⟨hfL, hnd2⟩
      exact ⟨hmem.mpr ⟨hfL, hf⟩, hnd2⟩
    · rintro ⟨hfB, hnd2⟩
      exact ⟨(hmem.mp hfB).1, hnd2⟩
  · simp only [BackupManager.cleanup_old_backups, if_neg hlen]
    rw [List.take_of_length_le (Nat.le_of_not_lt hlen)]
    constructor
    · intro hfL
      exact hmem.mpr ⟨hfL, hf⟩
    · intro hfB
      exact (hmem.mp hfB).1

theorem cleanup_nodup (maxB : Nat) (L : List BackupManager.BFile) (hnd : L.Nodup) :
    (BackupManager.cleanup_old_backups maxB L).Nodup := by
  by_cases hlen : maxB < (BackupManager.list_backups L).length
  · simp only [BackupManager.cleanup_old_backups, if_pos hlen]
    exact hnd.filter _
  · simp only [BackupManager.cleanup_old_backups, if_neg hlen]
    exact hnd

/-- C4 (amended): after every `create_backup` call, on a directory with
distinct files, the archive files remaining are exactly the first
`max_backups` entries of the backup listing ordered by the `created`
timestamp (`st_ctime`) newest first — not by mtime, as the counterexample
shows — and their number is the minimum of `max_backups` and the number of
archives present, hence at most `max_backups` (and exactly `max_backups`
as soon as more than `max_backups` archives had accumulated). -/
theorem c4_retention_after_create (maxB : Nat) (nf : BackupManager.BFile)
    (files : List BackupManager.BFile) (hnd : (files ++ [nf]).Nodup) :
    (∀ f, BackupManager.isArchiveFile f = true →
      (f ∈ BackupManager.create_backup_retention maxB nf files ↔
        f ∈ (BackupManager.list_backups (files ++ [nf])).take maxB)) ∧
    ((BackupManager.create_backup_retention maxB nf files).filter
        BackupManager.isArchiveFile).length =
      min maxB (BackupManager.list_backups (files ++ [nf])).length ∧
    ((BackupManager.create_backup_retention maxB nf files).filter
        BackupManager.isArchiveFile).length ≤ maxB := by
  have hBnodup := nodup_list_backups (files ++ [nf]) hnd
  have hmemB := mem_list_backups (files ++ [nf])
  have ha : ∀ f, BackupManager.isArchiveFile f = true →
      (f ∈ BackupManager.create_backup_retention maxB nf files ↔
        f ∈ (BackupManager.list_backups (files ++ [nf])).take maxB) := by
    intro f hf
    exact cleanup_mem_iff maxB (files ++ [nf]) hnd f hf
  refine ⟨ha, ?_⟩
  have hperm : ((BackupManager.create_backup_retention maxB nf files).filter
      BackupManager.isArchiveFile).Perm
        ((BackupManager.list_backups (files ++ [nf])).take maxB) := by
    apply List.perm_of_nodup_nodup_toFinset_eq
    · exact (cleanup_nodup maxB (files ++ [nf]) hnd).filter _
    · exact (List.take_sublist maxB _).nodup hBnodup
    · apply Finset.ext
      intro a
      rw [List.mem_toFinset, List.mem_toFinset, List.mem_filter]
      constructor
      · rintro ⟨hin, harch⟩
        exact (ha a harch).mp hin
      · intro hin
        have haB : a ∈ BackupManager.list_backups (files ++ [nf]) :=
          List.take_subset maxB _ hin
        have harch : BackupManager.isArchiveFile a = true := ((hmemB a).mp haB).2
        exact ⟨(ha a harch).mpr hin, harch⟩
  have hlen := hperm.length_eq
  rw [List.length_take] at hlen
  refine ⟨hlen, ?_⟩
  rw [hlen]
  exact Nat.min_le_left _ _

/-- Witness for C4: a concrete directory of three distinct archives with
`max_backups = 2`. -/
theorem c4_retention_after_create_witness :
    (∀ f, BackupManager.isArchiveFile f = true →
      (f ∈ BackupManager.create_backup_retention 2 ⟨"c.tar.gz".toList, 3, 3⟩
          [⟨"a.tar.gz".toList, 2, 1⟩, ⟨"b.tar.gz".toList, 1, 2⟩] ↔
        f ∈ (BackupManager.list_backups
          ([⟨"a.tar.gz".toList, 2, 1⟩, ⟨"b.tar.gz".toList, 1, 2⟩] ++
            [⟨"c.tar.gz".toList, 3, 3⟩])).take 2)) ∧
    ((BackupManager.create_backup_retention 2 ⟨"c.tar.gz".toList, 3, 3⟩
        [⟨"a.tar.gz".toList, 2, 1⟩, ⟨"b.tar.gz".toList, 1, 2⟩]).filter
        BackupManager.isArchiveFile).length =
      min 2 (BackupManager.list_backups
        ([⟨"a.tar.gz".toList, 2, 1⟩, ⟨"b.tar.gz".toList, 1, 2⟩] ++
          [⟨"c.tar.gz".toList, 3, 3⟩])).length ∧
    ((BackupManager.create_backup_retention 2 ⟨"c.tar.gz".toList, 3, 3⟩
        [⟨"a.tar.gz".toList, 2, 1⟩, ⟨"b.tar.gz".toList, 1, 2⟩]).filter
        BackupManager.isArchiveFile).length ≤ 2 :=
  c4_retention_after_create 2 _ _ (by decide)

/- ## BackupManager.create_backup / restore_backup
   (src/utils/backup_manager.py:60-133,207-242,244-358)

`create_backup` copies the existing files of five known categories
(wireguard, nextdns, logs — when requested, security — when requested,
config) into a staging directory, writes `metadata.json` beside them
recording each copied file as `category/name`, and archives the staging
directory. The tar branch (`compression` on, the default) adds the whole
directory under the arcname `backup_name`, so its entries sit below one
top-level directory; the zip branch writes each file relative to the
staging directory, with no top-level directory.  `restore_backup`
dispatches on `Path(...).suffix` compared against the literal `.tar.gz`;
`Path.suffix` of a `.tar.gz` file is `.gz`, so that branch is unreachable
and such archives are rejected as unsupported.  The zip branch extracts
into a temp directory and then requires `iterdir()[0]` to be a directory
(else `Invalid backup structure`) containing `metadata.json` (else
`Backup metadata not found`) before copying back the wireguard, nextdns,
logs and security subdirectories of that directory.  The order in which
`iterdir` lists the extracted entries is filesystem-dependent, so the name
of its first entry is an input, constrained in the theorem to be one of
the actual top-level entries.  Extracted trees are modelled by the file
paths they contain (archives store files; category directories exist
exactly where files were stored, which is all the structure checks and
glob loops observe). -/

namespace BackupManager

/-- Characters after the last dot of a name, when a dot exists. -/
def suffixAux : List Char → Option (List Char)
  | [] => none
  | c :: rest =>
    match suffixAux rest with
    | some s => some s
    | none => if c = '.' then some rest else none

/-- Model of `pathlib.Path(...).suffix` for the archive names in play:
the final extension including its dot, empty when the name has no dot. -/
def path_suffix (name : List Char) : List Char :=
  match suffixAux name with
  | some s => '.' :: s
  | none => []

/-- The source file sets visible to `create_backup` (pairs of file name
and content; each list holds the files that exist in that category). -/
structure SourceFiles where
  wireguard : List (String × String)
  nextdns : List (String × String)
  logs : List (String × String)
  security : List (String × String)
  appConfig : List (String × String)
deriving DecidableEq

/-- An archive on disk: its file name, the backup name used as the tar
arcname, whether the entries sit under that top-level directory (tar) or
are flat (zip), the staged category files as (category, file name,
content) triples, and the metadata `files` list. -/
structure Archive where
  name : List Char
  backupName : String
  wrapped : Bool
  entries : List (String × String × String)
  metadataFiles : List String
deriving DecidableEq

/-- Copy one category into the staging directory. -/
def catFiles (cat : String) (fs : List (String × String)) :
    List (String × String × String) :=
  fs.map (fun p => (cat, p.1, p.2))

/-- Model of `BackupManager.create_backup`: category copies in source
order, the recorded metadata list, and the archive name and layout chosen
by `_create_archive` (tar wraps everything in `backup_name`, zip stores
paths relative to the staging directory). -/
def create_backup (include_logs include_security compression : Bool)
    (src : SourceFiles) (timestamp : String) : Archive :=
  let entries :=
    catFiles "wireguard" src.wireguard ++
    catFiles "nextdns" src.nextdns ++
    (if include_logs then catFiles "logs" src.logs else []) ++
    (if include_security then catFiles "security" src.security else []) ++
    catFiles "config" src.appConfig
  { name := ("warp_nextdns_backup_" ++ timestamp ++
      (if compression then ".tar.gz" else ".zip")).toList
    backupName := "warp_nextdns_backup_" ++ timestamp
    wrapped := compression
    entries := entries
    metadataFiles := entries.map (fun e => e.1 ++ "/" ++ e.2.1) }

/-- The file paths (as component lists) contained in the archive and thus
recreated by extraction: the staged `metadata.json` plus the category
files, under the `backup_name` directory for tar and flat for zip. -/
def archivePaths (a : Archive) : List (List String) :=
  if a.wrapped then
    [a.backupName, "metadata.json"] ::
      a.entries.map (fun e => [a.backupName, e.1, e.2.1])
  else
    ["metadata.json"] :: a.entries.map (fun e => [e.1, e.2.1])

/-- The top-level entry names of an extracted tree (with repetition;
`iterdir` may list them in any order). -/
def topNames (t : List (List String)) : List String :=
  t.filterMap List.head?

/-- Whether the top-level entry `n` is a directory: some path descends
through it. -/
def isDirTop (t : List (List String)) (n : String) : Bool :=
  t.any (fun p =>
    match p with
    | c :: _ :: _ => c == n
    | _ => false)

/-- The paths below the top-level directory `n`. -/
def underDir (t : List (List String)) (n : String) : List (List String) :=
  t.filterMap (fun p =>
    match p with
    | c :: rest => if c == n then some rest else none
    | [] => none)

/-- The `restored_files` names contributed by one category directory of
`backup_dir`: its immediate file children, recorded as `category/name`. -/
def catRestoreNames (bdir : List (List String)) (cat : String) : List String :=
  bdir.filterMap (fun p =>
    match p with
    | [c, n] => if c == cat then some (cat ++ "/" ++ n) else none
    | _ => none)

/-- The structure checks and copy-back of `restore_backup` after
extraction: `backup_dirs[0]` (the input `firstTop`, `none` when the temp
directory is empty) must be a directory holding `metadata.json`, and then
the four category subdirectories are copied back in source order. -/
def extractRestore (firstTop : Option String) (t : List (List String)) :
    Except String (List String) :=
  match firstTop with
  | none => .error "Invalid backup structure"
  | some first =>
    if isDirTop t first then
      if (underDir t first).contains ["metadata.json"] then
        .ok (catRestoreNames (underDir t first) "wireguard" ++
             catRestoreNames (underDir t first) "nextdns" ++
             catRestoreNames (underDir t first) "logs" ++
             catRestoreNames (underDir t first) "security")
      else .error "Backup metadata not found"
    else .error "Invalid backup structure"

/-- Model of `BackupManager.restore_backup`: the suffix dispatch, then
extraction and the structure checks; the returned list is
`restored_files`. -/
def restore_backup (firstTop : Option String) (a : Archive) :
    Except String (List String) :=
  if path_suffix a.name = ".tar.gz".toList then extractRestore firstTop (archivePaths a)
  else if path_suffix a.name = ".zip".toList then extractRestore firstTop (archivePaths a)
  else .error "Unsupported backup format"

/-- A small concrete source file set: one WireGuard config and one
application config file. -/
def demoSrc : SourceFiles :=
  ⟨[("wgcf.conf", "wg")], [], [], [], [("setup.py", "cfg")]⟩

end BackupManager

/-- C3: the backup round-trip fails on the code.  With the default
configuration (`compression` on) the archive is named `*.tar.gz`, whose
`Path.suffix` is `.gz`; `restore_backup` compares that suffix against the
literal `.tar.gz`, never matches, and rejects its own archive as an
unsupported format whatever the extraction listing would have been — the
recorded file set is not restored.  And a zip archive produced by
`create_backup` fares no better: its entries are flat, so whichever entry
`iterdir` lists first (the top-level names here are `metadata.json`,
`wireguard` and `config`), the structure checks fail — with `Invalid
backup structure` when the first entry is the `metadata.json` file, and
with `Backup metadata not found` when it is a category directory — and
nothing is restored. -/
theorem c3_roundtrip_failing_input :
    (∀ firstTop : Option String,
      BackupManager.restore_backup firstTop
          (BackupManager.create_backup true true true BackupManager.demoSrc
            "20240101_120000") =
        Except.error "Unsupported backup format") ∧
    BackupManager.path_suffix
        (BackupManager.create_backup true true true BackupManager.demoSrc
          "20240101_120000").name = ".gz".toList ∧
    (BackupManager.create_backup true true true BackupManager.demoSrc
        "20240101_120000").metadataFiles =
      ["wireguard/wgcf.conf", "config/setup.py"] ∧
    BackupManager.topNames
        (BackupManager.archivePaths
          (BackupManager.create_backup true true false BackupManager.demoSrc
            "20240101_120000")) =
      ["metadata.json", "wireguard", "config"] ∧
    BackupManager.restore_backup (some "metadata.json")
        (BackupManager.create_backup true true false BackupManager.demoSrc
          "20240101_120000") =
      Except.error "Invalid backup structure" ∧
    BackupManager.restore_backup (some "wireguard")
        (BackupManager.create_backup true true false BackupManager.demoSrc
          "20240101_120000") =
      Except.error "Backup metadata not found" ∧
    BackupManager.restore_backup (some "config")
        (BackupManager.create_backup true true false BackupManager.demoSrc
          "20240101_120000") =
      Except.error "Backup metadata not found" ∧
    BackupManager.restore_backup none
        (BackupManager.create_backup true true false BackupManager.demoSrc
          "20240101_120000") =
      Except.error "Invalid backup structure" :=
  ⟨fun _ => rfl, by decide, by decide, by decide, rfl, rfl, rfl, rfl⟩

/- ## SecurityManager.encrypt_data / decrypt_data
   (src/utils/security_manager.py:194-247)

`encrypt_data` draws a 12-byte IV, runs AES-256-GCM (a library primitive,
passed in here as the function `E` producing the ciphertext and the
16-byte tag), concatenates IV, tag and ciphertext in that order, and
base64-encodes the result.  `decrypt_data` base64-decodes, slices bytes
0..12 as IV, 12..28 as tag, 28.. as ciphertext, and runs the library
decryption `D`.  Byte strings are lists of naturals below 256; base64 is
modelled concretely. -/

namespace SecurityManager

/-- The base64 alphabet: the character for one 6-bit value. -/
def encChar (x : Nat) : Char :=
  if x < 26 then Char.ofNat (65 + x)
  else if x < 52 then Char.ofNat (97 + (x - 26))
  else if x < 62 then Char.ofNat (48 + (x - 52))
  else if x = 62 then '+'
  else '/'

/-- The base64 alphabet inverse: the 6-bit value of a character. -/
def decChar (c : Char) : Nat :=
  if 65 ≤ c.toNat ∧ c.toNat ≤ 90 then c.toNat - 65
  else if 97 ≤ c.toNat ∧ c.toNat ≤ 122 then 26 + (c.toNat - 97)
  else if 48 ≤ c.toNat ∧ c.toNat ≤ 57 then 52 + (c.toNat - 48)
  else if c.toNat = 43 then 62
  else 63

/-- Standard base64 encoding of a byte list, with padding. -/
def b64encode : List Nat → List Char
  | [] => []
  | [a] => [encChar (a / 4), encChar (a % 4 * 16), '=', '=']
  | [a, b] =>
    [encChar (a / 4), encChar (a % 4 * 16 + b / 16), encChar (b % 16 * 4), '=']
  | a :: b :: c :: rest =>
    encChar (a / 4) :: encChar (a % 4 * 16 + b / 16) ::
      encChar (b % 16 * 4 + c / 64) :: encChar (c % 64) :: b64encode rest

/-- Standard base64 decoding of a padded base64 text. -/
def b64decode : List Char → List Nat
  | c1 :: c2 :: c3 :: c4 :: rest =>
    if c3 = '=' then [decChar c1 * 4 + decChar c2 / 16]
    else if c4 = '=' then
      [decChar c1 * 4 + decChar c2 / 16, decChar c2 % 16 * 16 + decChar c3 / 4]
    else
      (decChar c1 * 4 + decChar c2 / 16) ::
        (decChar c2 % 16 * 16 + decChar c3 / 4) ::
        (decChar c3 % 4 * 64 + decChar c4) :: b64decode rest
  | _ => []

/-- Model of `SecurityManager.encrypt_data`: base64 of IV, then tag, then
ciphertext, where `E key iv data` is the library AES-GCM encryption
returning (ciphertext, tag). -/
def encrypt_data (E : List Nat → List Nat → List Nat → List Nat × List Nat)
    (key iv data : List Nat) : List Char :=
  b64encode (iv ++ (E key iv data).2 ++ (E key iv data).1)

/-- Model of `SecurityManager.decrypt_data`: base64-decode and slice at
byte offsets 12 and 28, where `D key iv tag ct` is the library AES-GCM
decryption. -/
def decrypt_data (D : List Nat → List Nat → List Nat → List Nat → List Nat)
    (key : List Nat) (enc : List Char) : List Nat :=
  D key ((b64decode enc).take 12) (((b64decode enc).drop 12).take 16)
    ((b64decode enc).drop 28)

end SecurityManager

/- Base64 round-trip lemmas. -/

theorem decChar_encChar : ∀ x : Nat, x < 64 →
    SecurityManager.decChar (SecurityManager.encChar x) = x := by
  decide

theorem encChar_ne_pad : ∀ x : Nat, x < 64 → SecurityManager.encChar x ≠ '=' := by
  decide

theorem b64_roundtrip : ∀ l : List Nat, (∀ x ∈ l, x < 256) →
    SecurityManager.b64decode (SecurityManager.b64encode l) = l := by
  intro l
  induction l using SecurityManager.b64encode.induct with
  | case1 => intro _; rfl
  | case2 a =>
    intro h
    have ha : a < 256 := h a (by simp)
    have h1 := decChar_encChar (a / 4) (by omega)
    have h2 := decChar_encChar (a % 4 * 16) (by omega)
    simp only [SecurityManager.b64encode, SecurityManager.b64decode, if_pos rfl, if_true,
      h1, h2]
    have : a / 4 * 4 + a % 4 * 16 / 16 = a := by omega
    rw [this]
  | case3 a b =>
    intro h
    have ha : a < 256 := h a (by simp)
    have hb : b < 256 := h b (by simp)
    have h1 := decChar_encChar (a / 4) (by omega)
    have h2 := decChar_encChar (a % 4 * 16 + b / 16) (by omega)
    have h3 := decChar_encChar (b % 16 * 4) (by omega)
    have hne : SecurityManager.encChar (b % 16 * 4) ≠ '=' := encChar_ne_pad _ (by omega)
    simp only [SecurityManager.b64encode, SecurityManager.b64decode, if_neg hne,
      if_pos rfl, if_true, h1, h2, h3]
    have e1 : a / 4 * 4 + (a % 4 * 16 + b / 16) / 16 = a := by omega
    have e2 : (a % 4 * 16 + b / 16) % 16 * 16 + b % 16 * 4 / 4 = b := by omega
    rw [e1, e2]
  | case4 a b c rest ih =>
    intro h
    have ha : a < 256 := h a (by simp)
    have hb : b < 256 := h b (by simp)
    have hc : c < 256 := h c (by simp)
    have h1 := decChar_encChar (a / 4) (by omega)
    have h2 := decChar_encChar (a % 4 * 16 + b / 16) (by omega)
    have h3 := decChar_encChar (b % 16 * 4 + c / 64) (by omega)
    have h4 := decChar_encChar (c % 64) (by omega)
    have hne3 : SecurityManager.encChar (b % 16 * 4 + c / 64) ≠ '=' :=
      encChar_ne_pad _ (by omega)
    have hne4 : SecurityManager.encChar (c % 64) ≠ '=' := encChar_ne_pad _ (by omega)
    have hrest := ih (fun x hx => h x (by simp [hx]))
    simp only [SecurityManager.b64encode, SecurityManager.b64decode, if_neg hne3,
      if_neg hne4, h1, h2, h3, h4, hrest]
    have e1 : a / 4 * 4 + (a % 4 * 16 + b / 16) / 16 = a := by omega
    have e2 : (a % 4 * 16 + b / 16) % 16 * 16 + (b % 16 * 4 + c / 64) / 4 = b := by omega
    have e3 : (b % 16 * 4 + c / 64) % 4 * 64 + c % 64 = c := by omega
    rw [e1, e2, e3]

/-- C9: encryption round-trip.  For every plaintext byte string, whenever
the library AES-GCM primitive satisfies its contract — the IV drawn by
`encrypt_data` has 12 bytes, the produced tag has 16 bytes, all produced
bytes are bytes, and decrypting the produced ciphertext under the same
key, IV and tag returns the plaintext — `decrypt_data` of `encrypt_data`
returns the original data: the base64-encoded IV, tag, ciphertext layout
written by `encrypt_data` is exactly the layout `decrypt_data` slices at
offsets 12 and 28. -/
theorem c9_encrypt_decrypt_roundtrip
    (E : List Nat → List Nat → List Nat → List Nat × List Nat)
    (D : List Nat → List Nat → List Nat → List Nat → List Nat)
    (key iv data : List Nat)
    (hivlen : iv.length = 12)
    (hiv : ∀ x ∈ iv, x < 256)
    (htaglen : (E key iv data).2.length = 16)
    (htag : ∀ x ∈ (E key iv data).2, x < 256)
    (hct : ∀ x ∈ (E key iv data).1, x < 256)
    (hgcm : D key iv (E key iv data).2 (E key iv data).1 = data) :
    SecurityManager.decrypt_data D key (SecurityManager.encrypt_data E key iv data) = data := by
  unfold SecurityManager.decrypt_data SecurityManager.encrypt_data
  have hall : ∀ x ∈ iv ++ (E key iv data).2 ++ (E key iv data).1, x < 256 := by
    intro x hx
    rcases List.mem_append.mp hx with hx2 | hx2
    · rcases List.mem_append.mp hx2 with hx3 | hx3
      · exact hiv x hx3
      · exact htag x hx3
    · exact hct x hx2
  rw [b64_roundtrip _ hall]
  rw [List.append_assoc]
  have htake : (iv ++ ((E key iv data).2 ++ (E key iv data).1)).take 12 = iv := by
    rw [← hivlen]
    exact List.take_left _ _
  have hdrop : (iv ++ ((E key iv data).2 ++ (E key iv data).1)).drop 12 =
      (E key iv data).2 ++ (E key iv data).1 := by
    rw [← hivlen]
    exact List.drop_left _ _
  have htag2 : ((iv ++ ((E key iv data).2 ++ (E key iv data).1)).drop 12).take 16 =
      (E key iv data).2 := by
    rw [hdrop, ← htaglen]
    exact List.take_left _ _
  have hct2 : (iv ++ ((E key iv data).2 ++ (E key iv data).1)).drop 28 =
      (E key iv data).1 := by
    rw [show (28 : Nat) = 12 + 16 from rfl, ← List.drop_drop, hdrop, ← htaglen]
    exact List.drop_left _ _
  rw [htake, htag2, hct2, hgcm]

/-- Witness for C9: a concrete cipher satisfying the AES-GCM contract (an
identity cipher with a constant 16-byte tag), a 12-byte IV and a concrete
two-byte plaintext. -/
theorem c9_encrypt_decrypt_roundtrip_witness :
    SecurityManager.decrypt_data (fun _ _ _ c => c) []
      (SecurityManager.encrypt_data (fun _ _ d => (d, List.replicate 16 0)) []
        (List.replicate 12 0) [104, 105]) = [104, 105] :=
  c9_encrypt_decrypt_roundtrip (fun _ _ d => (d, List.replicate 16 0))
    (fun _ _ _ c => c) [] (List.replicate 12 0) [104, 105]
    (by decide) (by decide) (by decide) (by decide) (by decide) rfl

/- ## NetworkMonitor._measure_latency (src/utils/network_monitor.py:137-191)

For each of the three DNS test servers a `ping -c 3` subprocess runs.  A
raised call (timeout etc.) counts 3 pings, all lost.  On return code 0 the
stdout lines are scanned: every line containing `time=` contributes one
`float()` parse of the first whitespace token of `line.split('time=')[1]`
— a ValueError skips the line, and a `time=` line with nothing after the
marker raises IndexError out of the scan (the outer except then counts the
3 pings, keeping the latencies gathered so far); a completed scan also
counts 3 pings.  A non-zero return code counts nothing.  The `float()`
library parse is the parameter `pfloat`; latencies are rationals (the
arithmetic performed is exact at these magnitudes). -/

namespace NetworkMonitor

/-- Outcome of the ping subprocess for one server. -/
inductive PingOutcome
  | exn
  | done (returncode : Int) (lines : List (List Char))

/-- The rest of `s` after the first occurrence of `pat`, when there is
one (fuel-indexed scan, fuel the length of `s`). -/
def afterFirstFuel (pat : List Char) : Nat → List Char → Option (List Char)
  | _, [] => none
  | 0, _ => none
  | fuel + 1, c :: rest =>
    if pat.isPrefixOf (c :: rest) then some (List.drop (pat.length - 1) rest)
    else afterFirstFuel pat fuel rest

/-- The rest of `s` after the first occurrence of `pat`. -/
def afterFirst (pat s : List Char) : Option (List Char) :=
  afterFirstFuel pat s.length s

/-- The prefix of `s` before the first occurrence of `pat` (all of `s`
when `pat` does not occur). -/
def takeUntilFuel (pat : List Char) : Nat → List Char → List Char
  | _, [] => []
  | 0, l => l
  | fuel + 1, c :: rest =>
    if pat.isPrefixOf (c :: rest) then []
    else c :: takeUntilFuel pat fuel rest

/-- The prefix of `s` before the first occurrence of `pat`. -/
def takeUntil (pat s : List Char) : List Char :=
  takeUntilFuel pat s.length s

/-- Python `str.split()` on a character list: maximal non-whitespace
runs. -/
def splitWsAux : List Char → List Char → List (List Char)
  | [], acc => if acc.isEmpty then [] else [acc.reverse]
  | c :: rest, acc =>
    if c.isWhitespace then
      if acc.isEmpty then splitWsAux rest []
      else acc.reverse :: splitWsAux rest []
    else splitWsAux rest (c :: acc)

/-- Python `str.split()` on a character list. -/
def splitWsTokens (s : List Char) : List (List Char) :=
  splitWsAux s []

/-- Scan the stdout lines of one `returncode = 0` ping run: the parsed
latencies in order, and whether the scan aborted with IndexError. -/
def scanLines (pfloat : List Char → Option ℚ) : List (List Char) → List ℚ × Bool
  | [] => ([], false)
  | l :: ls =>
    if containsSub "time=".toList l then
      match afterFirst "time=".toList l with
      | none => ([], true)
      | some r =>
        match splitWsTokens (takeUntil "time=".toList r) with
        | [] => ([], true)
        | t :: _ =>
          match pfloat t with
          | some q =>
            let rec' := scanLines pfloat ls
            (q :: rec'.1, rec'.2)
          | none => scanLines pfloat ls
    else scanLines pfloat ls

/-- Latencies, successful-ping count and total-ping count contributed by
one server. -/
def pingServer (pfloat : List Char → Option ℚ) (o : PingOutcome) : List ℚ × Nat × Nat :=
  match o with
  | .exn => ([], 0, 3)
  | .done rc lines =>
    if rc == 0 then
      let qs := (scanLines pfloat lines).1
      (qs, qs.length, 3)
    else ([], 0, 0)

/-- The accumulation over the server list (latencies in server order). -/
def accumulate (pfloat : List Char → Option ℚ) : List PingOutcome → List ℚ × Nat × Nat
  | [] => ([], 0, 0)
  | o :: os =>
    ((pingServer pfloat o).1 ++ (accumulate pfloat os).1,
     (pingServer pfloat o).2.1 + (accumulate pfloat os).2.1,
     (pingServer pfloat o).2.2 + (accumulate pfloat os).2.2)

/-- Model of `NetworkMonitor._measure_latency`: the (latency, packet
loss) pair. -/
def measure_latency (pfloat : List Char → Option ℚ) (outcomes : List PingOutcome) : ℚ × ℚ :=
  let acc := accumulate pfloat outcomes
  if acc.1 = [] then (999, 100)
  else (acc.1.sum / acc.1.length,
    (((acc.2.2 : ℚ) - (acc.2.1 : ℚ)) / (acc.2.2 : ℚ)) * 100)

/-- A concrete `float()` parse covering plain digit strings. -/
def parseNatQ (s : List Char) : Option ℚ :=
  if s.isEmpty then none
  else if s.all (fun c => c.isDigit) then
    some ((s.foldl (fun acc c => acc * 10 + (c.toNat - 48)) 0 : Nat) : ℚ)
  else none

/-- A ping output with four parseable `time=` lines (one more than the 3
packets sent). -/
def badOutcomes : List PingOutcome :=
  [.done 0 (List.replicate 4 "64 bytes: time=1 ms".toList)]

end NetworkMonitor

/- Accounting lemmas for the latency scan. -/

theorem pingServer_succ_len (pf : List Char → Option ℚ) (o : NetworkMonitor.PingOutcome) :
    (NetworkMonitor.pingServer pf o).2.1 = (NetworkMonitor.pingServer pf o).1.length := by
  cases o with
  | exn => rfl
  | done rc lines =>
    by_cases h : (rc == 0) = true
    · simp [NetworkMonitor.pingServer, h]
    · simp [NetworkMonitor.pingServer, h]

theorem accumulate_succ_len (pf : List Char → Option ℚ) :
    ∀ os : List NetworkMonitor.PingOutcome,
      (NetworkMonitor.accumulate pf os).2.1 = (NetworkMonitor.accumulate pf os).1.length := by
  intro os
  induction os with
  | nil => rfl
  | cons o os ih =>
    simp [NetworkMonitor.accumulate, List.length_append, pingServer_succ_len, ih]

theorem pingServer_total_of_lat (pf : List Char → Option ℚ) (o : NetworkMonitor.PingOutcome)
    (h : (NetworkMonitor.pingServer pf o).1 ≠ []) :
    (NetworkMonitor.pingServer pf o).2.2 = 3 := by
  cases o with
  | exn => simp [NetworkMonitor.pingServer] at h
  | done rc lines =>
    by_cases hrc : (rc == 0) = true
    · simp [NetworkMonitor.pingServer, hrc]
    · simp [NetworkMonitor.pingServer, hrc] at h

theorem accumulate_total_pos (pf : List Char → Option ℚ) :
    ∀ os : List NetworkMonitor.PingOutcome,
      (NetworkMonitor.accumulate pf os).1 ≠ [] →
        3 ≤ (NetworkMonitor.accumulate pf os).2.2 := by
  intro os
  induction os with
  | nil => intro h; simp [NetworkMonitor.accumulate] at h
  | cons o os ih =>
    intro h
    simp only [NetworkMonitor.accumulate] at h ⊢
    by_cases hp : (NetworkMonitor.pingServer pf o).1 = []
    · have hrest : (NetworkMonitor.accumulate pf os).1 ≠ [] := by
        intro hr
        rw [hp, hr] at h
        exact h rfl
      have := ih hrest
      omega
    · have := pingServer_total_of_lat pf o hp
      omega

theorem pingServer_succ_le_total (pf : List Char → Option ℚ)
    (o : NetworkMonitor.PingOutcome) (h : (NetworkMonitor.pingServer pf o).2.1 ≤ 3) :
    (NetworkMonitor.pingServer pf o).2.1 ≤ (NetworkMonitor.pingServer pf o).2.2 := by
  cases o with
  | exn => simp [NetworkMonitor.pingServer]
  | done rc lines =>
    by_cases hrc : (rc == 0) = true
    · simp only [NetworkMonitor.pingServer, hrc] at h ⊢
      simp only [if_true] at h ⊢
      omega
    · simp [NetworkMonitor.pingServer, hrc]

theorem accumulate_succ_le_total (pf : List Char → Option ℚ)
    (os : List NetworkMonitor.PingOutcome)
    (h : ∀ o ∈ os, (NetworkMonitor.pingServer pf o).2.1 ≤ 3) :
    (NetworkMonitor.accumulate pf os).2.1 ≤ (NetworkMonitor.accumulate pf os).2.2 := by
  induction os with
  | nil => simp [NetworkMonitor.accumulate]
  | cons o os ih =>
    have h1 := pingServer_succ_le_total pf o (h o (by simp))
    have h2 := ih (fun x hx => h x (by simp [hx]))
    simp only [NetworkMonitor.accumulate]
    omega

/-- C10 (amended): the latency measurement is a total function of the
ping outcomes (no exception escapes) and never divides by zero — when any
latency was parsed the total-ping denominator is positive; when no
latency value could be parsed from any server the result is exactly
(999.0, 100.0).  The packet loss lies within 0 to 100 provided each
successful ping run yields at most 3 parsed latency values (true of real
`ping -c 3` output); a malformed output with more parseable `time=` lines
drives it negative, as the counterexample shows. -/
theorem c10_measure_latency_safety (pf : List Char → Option ℚ)
    (outcomes : List NetworkMonitor.PingOutcome)
    (hparse : ∀ o ∈ outcomes, (NetworkMonitor.pingServer pf o).2.1 ≤ 3) :
    ((NetworkMonitor.accumulate pf outcomes).1 = [] →
      NetworkMonitor.measure_latency pf outcomes = (999, 100)) ∧
    ((NetworkMonitor.accumulate pf outcomes).1 ≠ [] →
      0 < (NetworkMonitor.accumulate pf outcomes).2.2 ∧
      0 ≤ (NetworkMonitor.measure_latency pf outcomes).2 ∧
      (NetworkMonitor.measure_latency pf outcomes).2 ≤ 100) := by
  constructor
  · intro h
    simp [NetworkMonitor.measure_latency, h]
  · intro h
    have htot3 := accumulate_total_pos pf outcomes h
    have htot : 0 < (NetworkMonitor.accumulate pf outcomes).2.2 := by omega
    have hsle := accumulate_succ_le_total pf outcomes hparse
    have hsnd : (NetworkMonitor.measure_latency pf outcomes).2 =
        (((NetworkMonitor.accumulate pf outcomes).2.2 : ℚ) -
          ((NetworkMonitor.accumulate pf outcomes).2.1 : ℚ)) /
          ((NetworkMonitor.accumulate pf outcomes).2.2 : ℚ) * 100 := by
      simp [NetworkMonitor.measure_latency, h]
    have htq : (0 : ℚ) < ((NetworkMonitor.accumulate pf outcomes).2.2 : ℚ) := by
      exact_mod_cast htot
    have hsq : ((NetworkMonitor.accumulate pf outcomes).2.1 : ℚ) ≤
        ((NetworkMonitor.accumulate pf outcomes).2.2 : ℚ) := by
      exact_mod_cast hsle
    refine ⟨htot, ?_, ?_⟩
    · rw [hsnd]
      apply mul_nonneg
      · apply div_nonneg
        · linarith
        · linarith
      · norm_num
    · rw [hsnd]
      have h1 : (((NetworkMonitor.accumulate pf outcomes).2.2 : ℚ) -
          ((NetworkMonitor.accumulate pf outcomes).2.1 : ℚ)) /
          ((NetworkMonitor.accumulate pf outcomes).2.2 : ℚ) ≤ 1 := by
        rw [div_le_one htq]
        linarith
      nlinarith

/-- C10 counterexample: one server returning exit code 0 with four
parseable `time=` lines (one more than the 3 pings sent) makes
`successful_pings` exceed `total_pings`, so the packet loss is negative —
outside the claimed 0 to 100 range. -/
theorem c10_counterexample :
    (NetworkMonitor.measure_latency NetworkMonitor.parseNatQ
        NetworkMonitor.badOutcomes).2 < 0 ∧
    NetworkMonitor.measure_latency NetworkMonitor.parseNatQ
        NetworkMonitor.badOutcomes = (1, -100 / 3) := by
  have hacc : NetworkMonitor.accumulate NetworkMonitor.parseNatQ
      NetworkMonitor.badOutcomes = ([1, 1, 1, 1], 4, 3) := by
    decide
  have h1 : NetworkMonitor.measure_latency NetworkMonitor.parseNatQ
      NetworkMonitor.badOutcomes =
      (([1, 1, 1, 1] : List ℚ).sum / ((([1, 1, 1, 1] : List ℚ).length : Nat) : ℚ),
       (((3 : Nat) : ℚ) - ((4 : Nat) : ℚ)) / ((3 : Nat) : ℚ) * 100) := by
    simp [NetworkMonitor.measure_latency, hacc]
  rw [h1]
  refine ⟨by norm_num, ?_⟩
  rw [Prod.ext_iff]
  constructor
  · norm_num
  · norm_num

/-- Witness for C10: a concrete outcome list (one parsed latency, one
raised ping) satisfying the parse-count hypothesis. -/
theorem c10_measure_latency_safety_witness :
    0 < (NetworkMonitor.accumulate NetworkMonitor.parseNatQ
        [.done 0 ["reply time=2 ms".toList], .exn]).2.2 ∧
    0 ≤ (NetworkMonitor.measure_latency NetworkMonitor.parseNatQ
        [.done 0 ["reply time=2 ms".toList], .exn]).2 ∧
    (NetworkMonitor.measure_latency NetworkMonitor.parseNatQ
        [.done 0 ["reply time=2 ms".toList], .exn]).2 ≤ 100 :=
  (c10_measure_latency_safety NetworkMonitor.parseNatQ
    [.done 0 ["reply time=2 ms".toList], .exn] (by decide)).2 (by decide)
